import Mathlib

/-!
Shallow embedding of the Data_Gen_Agent pipeline (Python) in Lean 4,
with theorems settling the frozen claims about its specification.

Strings are modelled as `List Char`; Python `set` membership is modelled
by list membership; the md5 digests used purely as dedup keys are
modelled by the digested text itself (a collision-free model of the
digest, which only ever feeds equality tests).
-/

set_option maxHeartbeats 1000000

abbrev PyStr := List Char

/-- Python `str.lower()` (ASCII behaviour, which is all the code relies on). -/

def pyLower (s : PyStr) : PyStr := s.map Char.toLower

/-- Python `str.strip()`: remove leading and trailing whitespace. -/

def pyStrip (s : PyStr) : PyStr :=
  ((s.dropWhile Char.isWhitespace).reverse.dropWhile Char.isWhitespace).reverse

/-- Python `haystack.endswith(needle)`. -/

def pyEndsWith (haystack needle : PyStr) : Bool := needle.isSuffixOf haystack

/-- Python `needle in haystack` for strings (substring containment). -/

def pyContains (haystack needle : PyStr) : Bool := decide (List.IsInfix needle haystack)

/-- Result of Python `urllib.parse.urlparse` restricted to the fields the
pipeline reads (`scheme`, `netloc`, `path`). -/

structure UrlParts where
  scheme : PyStr
  netloc : PyStr
  path : PyStr
deriving DecidableEq, Repr

/-- Characters allowed in a URL scheme after the initial letter. -/

def schemeChar (c : Char) : Bool := c.isAlphanum || c = '+' || c = '-' || c = '.'

/-- Split off a leading `scheme:` if present; the scheme is lowercased as
`urlparse` does. Returns `([], s)` when `s` has no scheme. -/

def splitScheme (s : PyStr) : PyStr × PyStr :=
  let pre := s.takeWhile schemeChar
  match s.drop pre.length with
  | ':' :: rest =>
    match pre with
    | c :: _ => if c.isAlpha then (pyLower pre, rest) else ([], s)
    | [] => ([], s)
  | _ => ([], s)

/-- Model of `urllib.parse.urlparse`: a netloc is recognised only after
`//`, and query/fragment parts are cut from the path. -/

def urlparse (s : PyStr) : UrlParts :=
  let p := splitScheme s
  match p.2 with
  | '/' :: '/' :: r =>
    let netloc := r.takeWhile (fun c => !(c = '/' || c = '?' || c = '#'))
    let after := r.drop netloc.length
    { scheme := p.1, netloc := netloc,
      path := after.takeWhile (fun c => !(c = '?' || c = '#')) }
  | other =>
    { scheme := p.1, netloc := [],
      path := other.takeWhile (fun c => !(c = '?' || c = '#')) }

/-- Source `FiltrationAgent`: file-extension blocklist. -/

def excludedExtensions : List PyStr :=
  [".pdf", ".doc", ".docx", ".ppt", ".pptx", ".xls", ".xlsx",
   ".zip", ".rar", ".tar", ".gz", ".mp4", ".avi", ".mp3",
   ".jpg", ".jpeg", ".png", ".gif", ".bmp"].map String.toList

/-- Source `FiltrationAgent`: domain blocklist. -/

def excludedDomains : List PyStr :=
  ["twitter.com", "facebook.com", "instagram.com", "linkedin.com",
   "youtube.com", "tiktok.com", "reddit.com"].map String.toList

/-- Source `FiltrationAgent._is_valid_url`. -/

def isValidUrl (url : PyStr) : Bool :=
  let parsed := urlparse url
  if parsed.scheme = [] || parsed.netloc = [] then false
  else if excludedExtensions.any (fun ext => pyEndsWith (pyLower url) ext) then false
  else if excludedDomains.any (fun d => pyContains (pyLower parsed.netloc) d) then false
  else if url.length < 10 then false
  else true

/-- Source `FiltrationAgent._normalize_url`: lowercase/strip, reassemble
`scheme://netloc path`, drop one trailing slash. -/

def normalizeUrl (url : PyStr) : PyStr :=
  let parsed := urlparse (pyStrip (pyLower url))
  let normalized := parsed.scheme ++ (String.toList "://") ++ parsed.netloc ++ parsed.path
  if normalized.getLast? = some '/' then normalized.dropLast else normalized

/-- The fields of `SearchResult` that the filtration logic reads. -/

structure SearchResult where
  url : PyStr
  title : PyStr
  snippet : PyStr
deriving DecidableEq, Repr

/-- Source `FiltrationAgent._calculate_content_hash`: md5 of
`f"{title.lower().strip()} {snippet.lower().strip()}"`, modelled by the
digested text itself. -/

def searchContentHash (title snippet : PyStr) : PyStr :=
  pyStrip (pyLower title) ++ ' ' :: pyStrip (pyLower snippet)

/-- Loop state of `FiltrationAgent.execute`: the `seen_urls` and
`seen_content` sets and the accumulated `filtered_results`. -/

structure FiltState where
  seenUrls : List PyStr
  seenContent : List PyStr
  results : List SearchResult
deriving Repr

/-- One iteration of the `for result in input_data` loop of
`FiltrationAgent.execute`. -/

def filtrationStep (st : FiltState) (r : SearchResult) : FiltState :=
  if isValidUrl r.url = false then st
  else
    let nu := normalizeUrl r.url
    if nu ∈ st.seenUrls then st
    else
      let ch := searchContentHash r.title r.snippet
      if ch ∈ st.seenContent then st
      else ⟨nu :: st.seenUrls, ch :: st.seenContent, st.results ++ [r]⟩

/-- Source `FiltrationAgent.execute`: the returned `filtered_results`. -/

def filtrationExecute (input : List SearchResult) : List SearchResult :=
  (input.foldl filtrationStep ⟨[], [], []⟩).results

/-- CanonicalKey of a search result: its normalized URL. -/

def urlKey (r : SearchResult) : PyStr := normalizeUrl r.url

/-- Content-hash key of a search result. -/

def contentKey (r : SearchResult) : PyStr := searchContentHash r.title r.snippet

/-- Invariant tying `filtered_results` to the two seen-sets. -/

def FiltInv (st : FiltState) : Prop :=
  (st.results.map urlKey).Nodup ∧
  (st.results.map contentKey).Nodup ∧
  (∀ r ∈ st.results, urlKey r ∈ st.seenUrls) ∧
  (∀ r ∈ st.results, contentKey r ∈ st.seenContent)

/-- The spec-side reading of the structural validity check (second
definition written to the claim's words, for comparison with
`isValidUrl`): scheme and host present, no blocked file extension, the
host does not *belong to* the blocked host list (list membership, not
substring containment), and the length is at least the minimum (10). -/

def specValidUrl (url : PyStr) : Bool :=
  let parsed := urlparse url
  (decide (parsed.scheme ≠ [])) && (decide (parsed.netloc ≠ [])) &&
  (!(excludedExtensions.any (fun ext => pyEndsWith (pyLower url) ext))) &&
  (!(excludedDomains.any (fun d => decide (pyLower parsed.netloc = d)))) &&
  (decide (10 ≤ url.length))

/-- Dedup loop state of `DataCollectionAgent.execute` (`seen_hashes` and
`unique_data_points`). -/

structure DedupState (π κ : Type) where
  seen : List κ
  unique : List π

/-- One iteration of the `for point in all_data_points` loop of
`DataCollectionAgent.execute`. `key` is `_calculate_content_hash`
(md5 of the sorted-key JSON dump of the content), modelled as an
arbitrary key function. -/

def dedupStep {π κ : Type} [DecidableEq κ] (key : π → κ)
    (st : DedupState π κ) (p : π) : DedupState π κ :=
  if key p ∈ st.seen then st else ⟨key p :: st.seen, st.unique ++ [p]⟩

/-- The `unique_data_points` list computed by `DataCollectionAgent.execute`. -/

def collectUnique {π κ : Type} [DecidableEq κ] (key : π → κ) (points : List π) : List π :=
  (points.foldl (dedupStep key) ⟨[], []⟩).unique

/-- Model of the Python float pipeline
`f"{(a/b)*100:.1f}%"`: tenths of percent, rounded (exact at the values
the claims evaluate, where no floating-point rounding occurs). -/

def formatPct1 (a b : Nat) : String :=
  let t := (2 * 1000 * a + b) / (2 * b)
  Nat.repr (t / 10) ++ "." ++ Nat.repr (t % 10) ++ "%"

/-- The metadata fields of the final dataset that the claims read
(the constant provenance strings and the timestamp are omitted). -/

structure FinalMetadata where
  requested_count : Nat
  actual_count : Nat
  completion_rate : String
  total_generated : Nat
  after_deduplication : Nat
deriving Repr, DecidableEq

/-- The final dataset structure built by `DataCollectionAgent.execute`;
the `data` entries are modelled by the underlying points (their `id`
field is the position, which adds no information). -/

structure FinalDataset (π : Type) where
  metadata : FinalMetadata
  data : List π

/-- Source `DataCollectionAgent.execute`: combine the per-agent lists, dedup by
content hash, truncate to the target, and build the final dataset. -/

def dataCollectionExecute {π κ : Type} [DecidableEq κ] (key : π → κ)
    (synthetic_data_lists : List (List π)) (target : Nat) : FinalDataset π :=
  let all_data_points := synthetic_data_lists.flatten
  let unique_data_points := collectUnique key all_data_points
  let final_data_points := unique_data_points.take target
  { metadata :=
      { requested_count := target
        actual_count := final_data_points.length
        completion_rate := formatPct1 final_data_points.length target
        total_generated := all_data_points.length
        after_deduplication := unique_data_points.length }
    data := final_data_points }

/-- Invariant of the collection dedup loop. -/

def DedupInv {π κ : Type} (key : π → κ) (st : DedupState π κ) : Prop :=
  (st.unique.map key).Nodup ∧ ∀ p ∈ st.unique, key p ∈ st.seen

/-- Source `main.py` stage 4, the `for i, topic in enumerate(topics_to_process)`
accumulation loop: each topic's generated records are appended to
`current_synthetic_data`, which is saved as the `synthetic_data` asset
after every topic; the loop stops early once `sample_count` is reached.
`gen` models `agent.execute` on a single topic. -/

def driverStage4 {π : Type} (gen : PyStr → List π) (sampleCount : Nat) :
    List PyStr → List π → List π
  | [], acc => acc
  | t :: ts, acc =>
    let acc2 := acc ++ gen t
    if sampleCount ≤ acc2.length then acc2 else driverStage4 gen sampleCount ts acc2

/-- Modelled from the spec: `utils/pipeline_state_manager.py` (the
`StageCheckpointStore`) is not among the provided sources. Per spec §4.1
and §6 it holds a run `status`, named assets (each a serialized output
list, modelled as an optional list of strings per name), and scalar
checkpoint values. -/
structure PipelineState where
  status : PyStr
  assets : PyStr → Option (List PyStr)
  checkpoints : PyStr → Option Int

/-- Modelled from the spec: `PipelineStateManager.update_status`. -/
def updateStatus (s : PipelineState) (st : PyStr) : PipelineState :=
  { s with status := st }

/-- Modelled from the spec: `PipelineStateManager.clear_asset` removes
one named asset and nothing else. -/
def clearAsset (s : PipelineState) (name : PyStr) : PipelineState :=
  { s with assets := fun n => if n = name then none else s.assets n }

/-- Modelled from the spec: `PipelineStateManager.load_asset`. -/
def loadAsset (s : PipelineState) (name : PyStr) : Option (List PyStr) :=
  s.assets name

/-- The count `len(set(state_manager.load_asset("all_extracted_topics") or []))`
as computed by `main.py` stage 3. -/
def uniqueTopicsCount (s : PipelineState) : Nat :=
  ((loadAsset s (String.toList "all_extracted_topics")).getD []).dedup.length

/-- Source `main.py` stage 3, the post-extraction sufficiency check (the same
code appears in both the chunks-processed and the no-more-chunks
branches): if unique topics fall short of `required_topics`, set status
back to `query_parsed` and clear `refined_queries` and `search_results`;
otherwise advance to `topics_extracted`. -/
def stage3TopicsCheck (s : PipelineState) (requiredTopics : Nat) : PipelineState :=
  if uniqueTopicsCount s < requiredTopics then
    clearAsset
      (clearAsset (updateStatus s (String.toList "query_parsed"))
        (String.toList "refined_queries"))
      (String.toList "search_results")
  else
    updateStatus s (String.toList "topics_extracted")

/-- The pipeline status values of `main.py`'s `STATUS_LEVELS` table. -/
inductive Status where
  | initial
  | initialized
  | query_parsed
  | query_refined
  | web_searched
  | web_scraped
  | content_gathered
  | topics_extracted
  | data_generated
  | completed
deriving DecidableEq, Repr

/-- Source `STATUS_LEVELS`: the integer level of each status. -/
def statusLevel : Status → Nat
  | .initial => 0
  | .initialized => 1
  | .query_parsed => 2
  | .query_refined => 3
  | .web_searched => 4
  | .web_scraped => 5
  | .content_gathered => 6
  | .topics_extracted => 7
  | .data_generated => 8
  | .completed => 9

/-- Driver state abstracted to what claim C8 reads: the run status and
the length of the `synthetic_data` asset. -/
structure DriverState where
  status : Status
  count : Nat
deriving DecidableEq, Repr

/-- The status transitions of the `main.py` driver loop, one constructor
per `update_status` call site, each guarded by the level comparison that
guards it in the source; `generateForTopic` models one iteration of the
stage-4 topic loop, which appends to the `synthetic_data` asset without
touching the status.  `complete` is the only transition to `completed`
and is guarded by `len(final_synthetic_data) >= parsed_query.sample_count`. -/
inductive DriverStep (target : Nat) : DriverState → DriverState → Prop
  | parseQuery (s : DriverState) (h : statusLevel s.status < 2) :
      DriverStep target s ⟨.query_parsed, s.count⟩
  | refineQuery (s : DriverState) (h : statusLevel s.status < 3) :
      DriverStep target s ⟨.query_refined, s.count⟩
  | webSearch (s : DriverState) (h : statusLevel s.status < 4) :
      DriverStep target s ⟨.web_searched, s.count⟩
  | webScrape (s : DriverState) (h : statusLevel s.status < 5) :
      DriverStep target s ⟨.web_scraped, s.count⟩
  | gatherContent (s : DriverState) (h : statusLevel s.status < 6) :
      DriverStep target s ⟨.content_gathered, s.count⟩
  | topicsSufficient (s : DriverState) (h : statusLevel s.status < 7) :
      DriverStep target s ⟨.topics_extracted, s.count⟩
  | topicsInsufficient (s : DriverState) (h : statusLevel s.status < 7) :
      DriverStep target s ⟨.query_parsed, s.count⟩
  | generateForTopic (s : DriverState) (k : Nat) (h : statusLevel s.status < 8) :
      DriverStep target s ⟨s.status, s.count + k⟩
  | dataGenerated (s : DriverState) (h : statusLevel s.status < 8) :
      DriverStep target s ⟨.data_generated, s.count⟩
  | complete (s : DriverState) (h : target ≤ s.count) :
      DriverStep target s ⟨.completed, s.count⟩

/-- The loop-tail check of `main.py` (lines 413-416): reload the
`synthetic_data` asset; if the target is met, mark `completed` and break
(`true`), otherwise fall through to the next loop iteration (`false`). -/
def loopTailCheck (target : Nat) (s : DriverState) : DriverState × Bool :=
  if target ≤ s.count then (⟨.completed, s.count⟩, true) else (s, false)

/-- Outcome of one `model.generate_content` call as seen by
`GeminiService.generate_text`: success, a quota/rate-limit error (its
message contains "quota exceeded" or "rate limit"), or any other error. -/
inductive CallOutcome where
  | success (text : PyStr)
  | quotaFailure
  | otherFailure
deriving DecidableEq, Repr

/-- Observable events of `GeminiService.generate_text`, in program order. -/
inductive GenEvent where
  | call (attempt keyIndex : Nat)
  | rotate (newKeyIndex : Nat)
  | backoff (seconds : Nat)
  | raiseFinal
deriving DecidableEq, Repr

/-- Source `GeminiService.generate_text`: the `for attempt in
range(max_retries * len(self.api_keys))` loop. `oracle` gives the
outcome of the external call at each attempt. `_rotate_api_key` is
`(index + 1) % len(keys)`; the exponential backoff sleeps
`2 ** (attempt // len(keys))` seconds; the last attempt re-raises.
Returns the event trace, the successful text if any, and the final key
index. -/
def generateTextLoop (oracle : Nat → CallOutcome) (numKeys total attempt keyIdx : Nat)
    (trace : List GenEvent) : List GenEvent × Option PyStr × Nat :=
  if h : attempt < total then
    match oracle attempt with
    | .success t => (trace ++ [.call attempt keyIdx], some t, keyIdx)
    | .quotaFailure =>
      let k2 := (keyIdx + 1) % numKeys
      let ev := trace ++ [.call attempt keyIdx, .rotate k2]
      if attempt = total - 1 then (ev ++ [.raiseFinal], none, k2)
      else generateTextLoop oracle numKeys total (attempt + 1) k2
        (ev ++ [.backoff (2 ^ (attempt / numKeys))])
    | .otherFailure =>
      if attempt = total - 1 then (trace ++ [.call attempt keyIdx, .raiseFinal], none, keyIdx)
      else generateTextLoop oracle numKeys total (attempt + 1) keyIdx
        (trace ++ [.call attempt keyIdx, .backoff (2 ^ (attempt / numKeys))])
  else (trace, none, keyIdx)
termination_by total - attempt

/-- Source `SyntheticDataGeneratorAgent.execute`, the per-topic loop: each
topic's generated items are appended; an exception from the generation
service (all credentials exhausted) breaks the loop, after which the
accumulated points are saved by `_save_progress` and returned.  `gen`
models `gemini_service.generate_synthetic_data` on one topic, raising
as `Except.error`. -/
def syntheticAgentExecute {π : Type} (gen : PyStr → Except PyStr (List π)) :
    List PyStr → List π → List π
  | [], acc => acc
  | t :: ts, acc =>
    match gen t with
    | .ok items => syntheticAgentExecute gen ts (acc ++ items)
    | .error _ => acc

/-- JSON values, the shape `json.loads` returns (numbers restricted to
integers, which is all the embedded examples need). -/
inductive Json where
  | null
  | bool (b : Bool)
  | num (n : Int)
  | str (s : PyStr)
  | arr (elems : List Json)
  | obj (fields : List (PyStr × Json))
deriving Repr

/-- JSON whitespace skipping. -/
def skipWs (s : PyStr) : PyStr :=
  s.dropWhile (fun c => c = ' ' || c = '\n' || c = '\t' || c = '\r')

/-- Digits of a nonempty decimal literal to a natural number. -/
def digitsToNat (ds : PyStr) : Nat :=
  ds.foldl (fun acc c => 10 * acc + (c.toNat - '0'.toNat)) 0

mutual

/-- Model of the external `json.loads` value parser (recursive descent,
fuel-bounded; strings are parsed without escape sequences, which none of
the embedded inputs use). Returns the value and the unconsumed rest. -/
def parseValue : Nat → PyStr → Option (Json × PyStr)
  | 0, _ => none
  | fuel + 1, s =>
    match skipWs s with
    | [] => none
    | 'n' :: 'u' :: 'l' :: 'l' :: rest => some (.null, rest)
    | 't' :: 'r' :: 'u' :: 'e' :: rest => some (.bool true, rest)
    | 'f' :: 'a' :: 'l' :: 's' :: 'e' :: rest => some (.bool false, rest)
    | '"' :: rest =>
      let content := rest.takeWhile (fun c => !(c = '"'))
      match rest.drop content.length with
      | '"' :: rest2 => some (.str content, rest2)
      | _ => none
    | '[' :: rest =>
      (match skipWs rest with
       | ']' :: rest2 => some (.arr [], rest2)
       | _ =>
         match parseElems fuel rest with
         | some (elems, rest2) => some (.arr elems, rest2)
         | none => none)
    | '{' :: rest =>
      (match skipWs rest with
       | '}' :: rest2 => some (.obj [], rest2)
       | _ =>
         match parseFields fuel rest with
         | some (fields, rest2) => some (.obj fields, rest2)
         | none => none)
    | '-' :: rest =>
      let ds := rest.takeWhile Char.isDigit
      if ds = [] then none
      else some (.num (-(digitsToNat ds : Int)), rest.drop ds.length)
    | c :: rest =>
      if c.isDigit then
        let ds := (c :: rest).takeWhile Char.isDigit
        some (.num (digitsToNat ds : Int), (c :: rest).drop ds.length)
      else none

/-- Comma-separated JSON values up to a closing `]`. -/
def parseElems : Nat → PyStr → Option (List Json × PyStr)
  | 0, _ => none
  | fuel + 1, s =>
    match parseValue fuel s with
    | none => none
    | some (v, rest) =>
      match skipWs rest with
      | ',' :: rest2 =>
        (match parseElems fuel rest2 with
         | some (elems, rest3) => some (v :: elems, rest3)
         | none => none)
      | ']' :: rest2 => some ([v], rest2)
      | _ => none

/-- Comma-separated `"key": value` pairs up to a closing `}`. -/
def parseFields : Nat → PyStr → Option (List (PyStr × Json) × PyStr)
  | 0, _ => none
  | fuel + 1, s =>
    match skipWs s with
    | '"' :: rest =>
      let k := rest.takeWhile (fun c => !(c = '"'))
      (match rest.drop k.length with
       | '"' :: rest2 =>
         (match skipWs rest2 with
          | ':' :: rest3 =>
            (match parseValue fuel rest3 with
             | none => none
             | some (v, rest4) =>
               match skipWs rest4 with
               | ',' :: rest5 =>
                 (match parseFields fuel rest5 with
                  | some (fs, rest6) => some ((k, v) :: fs, rest6)
                  | none => none)
               | '}' :: rest5 => some ([(k, v)], rest5)
               | _ => none)
          | _ => none)
       | _ => none)
    | _ => none

end

/-- External `json.loads`: parse one JSON document, requiring the whole string to
be consumed (modulo trailing whitespace). -/
def jsonLoads (s : PyStr) : Option Json :=
  match parseValue (2 * s.length + 2) s with
  | some (v, rest) => if skipWs rest = [] then some v else none
  | none => none

/-- Python `str.find(char)` (as `Option` instead of `-1`). -/
def pyFind (c : Char) : PyStr → Option Nat
  | [] => none
  | x :: xs => if x = c then some 0 else (pyFind c xs).map (· + 1)

/-- Python `str.rfind(char)` (as `Option` instead of `-1`). -/
def pyRfind (c : Char) (s : PyStr) : Option Nat :=
  (pyFind c s.reverse).map (fun i => s.length - 1 - i)

/-- The slice `response[json_start:json_end+1]` taken by
`GeminiService.generate_synthetic_data`: from the first `[` to the last
`]`, if both exist. -/
def codeSpan (response : PyStr) : Option PyStr :=
  match pyFind '[' response with
  | none => none
  | some js =>
    match pyRfind ']' response with
    | none => none
    | some je => some ((response.take (je + 1)).drop js)

/-- The response-parsing tail of `GeminiService.generate_synthetic_data`:
slice from the first `[` to the last `]`, `json.loads` it, return the
parsed list, and return `[]` on any failure (missing bracket, decode
error, or a non-list value). -/
def generateSyntheticDataParse (response : PyStr) : List Json :=
  match codeSpan response with
  | none => []
  | some jsonStr =>
    match jsonLoads jsonStr with
    | some (.arr data) => data
    | some _ => []
    | none => []

/-- Depth-counting scan returning the prefix of `s` up to the bracket
that closes the first opening bracket. -/
def takeBalancedAux : PyStr → Nat → PyStr → Option PyStr
  | [], _, _ => none
  | c :: rest, depth, acc =>
    let d2 := if c = '[' || c = '{' then depth + 1
              else if c = ']' || c = '}' then depth - 1 else depth
    if (c = ']' || c = '}') && depth = 1 then some (acc ++ [c])
    else takeBalancedAux rest d2 (acc ++ [c])

/-- The claim-side reading of the extraction step (second definition
written to the claim's words, for comparison with `codeSpan`): the
*first balanced* `{...}`/`[...]` span of the response. -/
def firstBalancedSpan (s : PyStr) : Option PyStr :=
  match s.dropWhile (fun c => !(c = '[' || c = '{')) with
  | [] => none
  | tail => takeBalancedAux tail 0 []

/-- Parsing the first balanced span as the claim states it, with the
same failure handling. -/
def specFirstBalancedParse (response : PyStr) : List Json :=
  match firstBalancedSpan response with
  | none => []
  | some jsonStr =>
    match jsonLoads jsonStr with
    | some (.arr data) => data
    | some _ => []
    | none => []

/-- Result collection of
`ParallelProcessingOrchestrator.run_parallel_synthetic_generation`
(the `as_completed` loop): one entry per dispatched work item in
completion order (`order`), the item's result on success and `[]` on a
worker exception. -/
def collectGenerationResults {ι π : Type} (res : ι → Except PyStr (List π))
    (order : List ι) : List (List π) :=
  order.map (fun i => match res i with | .ok r => r | .error _ => [])

/-- The insufficient-topics extension of
`run_parallel_synthetic_generation`: when fewer topics than required are
available, `topics * ((required // len(topics)) + 1)` truncated to
`required`. -/
def extendTopics (topics : List PyStr) (required : Nat) : List PyStr :=
  if topics.length < required then
    ((List.replicate (required / topics.length + 1) topics).flatten).take required
  else topics

/-- Per-agent slice sizes: `topics_per_agent` each, plus one extra for
the first `remainder` agents. -/
def topicSetSizes (n w : Nat) : List Nat :=
  (List.range w).map (fun i => n / w + if i < n % w then 1 else 0)

/-- Successive contiguous slices of `l` with the given sizes (the
`start_idx`/`end_idx` loop). -/
def splitSizes {α : Type} : List α → List Nat → List (List α)
  | _, [] => []
  | l, n :: ns => l.take n :: splitSizes (l.drop n) ns

/-- The `topic_sets` computed by `run_parallel_synthetic_generation`. -/
def topicSets (topics : List PyStr) (w : Nat) : List (List PyStr) :=
  splitSizes topics (topicSetSizes topics.length w)

/-- Source `run_parallel_synthetic_generation`: early return of three empty
lists when no topics are available; otherwise extend topics if needed,
slice them across `maxWorkers` agents, dispatch only the non-empty
slices, and collect results (in submission order here; claim C6 treats
arbitrary completion orders through `collectGenerationResults`).
Returns the result lists and the dispatched topic sets. -/
def runParallelSyntheticGeneration {π : Type}
    (worker : List PyStr → Except PyStr (List π)) (maxWorkers required : Nat)
    (topics : List PyStr) : List (List π) × List (List PyStr) :=
  if topics.length = 0 then ([[], [], []], [])
  else
    let ext := extendTopics topics required
    let sets := topicSets ext maxWorkers
    let dispatched := sets.filter (fun s => !(s = []))
    (collectGenerationResults worker dispatched, dispatched)

lemma filtInv_init : FiltInv ⟨[], [], []⟩ := by
  refine ⟨List.nodup_nil, List.nodup_nil, ?_, ?_⟩ <;> intro r hr <;> simp at hr

lemma map_nodup_append_fresh {α β : Type} (f : α → β) (l : List α) (r : α)
    (h : (l.map f).Nodup) (hfresh : f r ∉ l.map f) :
    ((l ++ [r]).map f).Nodup := by
  rw [List.map_append, List.map_cons, List.map_nil, List.nodup_append]
  refine ⟨h, List.nodup_singleton _, ?_⟩
  intro a ha hb
  simp only [List.mem_singleton] at hb
  subst hb
  exact hfresh ha

lemma filtInv_step (st : FiltState) (r : SearchResult) (h : FiltInv st) :
    FiltInv (filtrationStep st r) := by
  obtain ⟨h1, h2, h3, h4⟩ := h
  unfold filtrationStep
  cases hv : isValidUrl r.url with
  | false => exact ⟨h1, h2, h3, h4⟩
  | true =>
    simp only [Bool.true_eq_false, if_false]
    by_cases hu : normalizeUrl r.url ∈ st.seenUrls
    · simp only [hu, if_true]
      exact ⟨h1, h2, h3, h4⟩
    · simp only [hu, if_false]
      by_cases hc : searchContentHash r.title r.snippet ∈ st.seenContent
      · simp only [hc, if_true]
        exact ⟨h1, h2, h3, h4⟩
      · simp only [hc, if_false]
        have hufresh : urlKey r ∉ st.results.map urlKey := by
          intro hmem
          obtain ⟨x, hx, hxe⟩ := List.mem_map.mp hmem
          have := h3 x hx
          rw [hxe] at this
          exact hu this
        have hcfresh : contentKey r ∉ st.results.map contentKey := by
          intro hmem
          obtain ⟨x, hx, hxe⟩ := List.mem_map.mp hmem
          have := h4 x hx
          rw [hxe] at this
          exact hc this
        refine ⟨map_nodup_append_fresh urlKey _ _ h1 hufresh,
                map_nodup_append_fresh contentKey _ _ h2 hcfresh, ?_, ?_⟩
        · intro x hx
          simp only [List.mem_append, List.mem_singleton] at hx
          rcases hx with hx | hx
          · exact List.mem_cons_of_mem _ (h3 x hx)
          · subst hx; exact List.mem_cons_self _ _
        · intro x hx
          simp only [List.mem_append, List.mem_singleton] at hx
          rcases hx with hx | hx
          · exact List.mem_cons_of_mem _ (h4 x hx)
          · subst hx; exact List.mem_cons_self _ _

lemma filtInv_foldl (input : List SearchResult) (st : FiltState) (h : FiltInv st) :
    FiltInv (input.foldl filtrationStep st) := by
  induction input generalizing st with
  | nil => exact h
  | cons a l ih => exact ih _ (filtInv_step st a h)

lemma filtrationExecute_nodup (input : List SearchResult) :
    ((filtrationExecute input).map urlKey).Nodup ∧
    ((filtrationExecute input).map contentKey).Nodup := by
  have h := filtInv_foldl input ⟨[], [], []⟩ filtInv_init
  exact ⟨h.1, h.2.1⟩

/-- If the keys of a list are pairwise distinct, at most one element
carries any given key. -/
lemma count_le_one_of_map_nodup {α β : Type} [DecidableEq β] (f : α → β)
    (l : List α) (h : (l.map f).Nodup) (k : β) :
    (l.filter (fun a => f a = k)).length ≤ 1 := by
  induction l with
  | nil => simp
  | cons a l ih =>
    simp only [List.map_cons, List.nodup_cons] at h
    by_cases hk : f a = k
    · have hnil : l.filter (fun a => f a = k) = [] := by
        rw [List.filter_eq_nil_iff]
        intro b hb
        simp only [decide_eq_true_eq]
        intro hbk
        exact h.1 (hk ▸ hbk ▸ List.mem_map_of_mem f hb)
      simp [List.filter_cons, hk, hnil]
    · simpa [List.filter_cons, hk] using ih h.2

lemma dedupInv_step {π κ : Type} [DecidableEq κ] (key : π → κ)
    (st : DedupState π κ) (p : π) (h : DedupInv key st) :
    DedupInv key (dedupStep key st p) := by
  obtain ⟨h1, h2⟩ := h
  unfold dedupStep
  by_cases hs : key p ∈ st.seen
  · simp only [hs, if_true]
    exact ⟨h1, h2⟩
  · simp only [hs, if_false]
    have hfresh : key p ∉ st.unique.map key := by
      intro hmem
      obtain ⟨x, hx, hxe⟩ := List.mem_map.mp hmem
      have := h2 x hx
      rw [hxe] at this
      exact hs this
    refine ⟨map_nodup_append_fresh key _ _ h1 hfresh, ?_⟩
    intro x hx
    simp only [List.mem_append, List.mem_singleton] at hx
    rcases hx with hx | hx
    · exact List.mem_cons_of_mem _ (h2 x hx)
    · subst hx; exact List.mem_cons_self _ _

lemma collectUnique_nodup {π κ : Type} [DecidableEq κ] (key : π → κ) (points : List π) :
    ((collectUnique key points).map key).Nodup := by
  suffices h : ∀ st : DedupState π κ, DedupInv key st →
      DedupInv key (points.foldl (dedupStep key) st) by
    exact (h ⟨[], []⟩ ⟨List.nodup_nil, by intro p hp; simp at hp⟩).1
  induction points with
  | nil => intro st h; exact h
  | cons a l ih => intro st h; exact ih _ (dedupInv_step key st a h)

lemma formatPct1_self (t : Nat) (h : 0 < t) : formatPct1 t t = "100.0%" := by
  unfold formatPct1
  have he : 2 * 1000 * t + t = 2 * t * 1000 + t := by ring
  have hd : (2 * 1000 * t + t) / (2 * t) = 1000 := by
    rw [he, Nat.mul_add_div (by omega)]
    rw [Nat.div_eq_of_lt (by omega)]
  rw [hd]
  decide

/-- C4 (amended): the structural URL check accepts exactly the URLs with
a scheme and a netloc, no blocked file extension, length at least 10,
and whose netloc does not *contain* any blocked domain as a substring
(the source tests `domain in parsed.netloc.lower()`, not membership in
the blocklist). -/
theorem c4_is_valid_url_iff (url : PyStr) :
    isValidUrl url = true ↔
      ((urlparse url).scheme ≠ [] ∧ (urlparse url).netloc ≠ [] ∧
       (∀ ext ∈ excludedExtensions, pyEndsWith (pyLower url) ext = false) ∧
       (∀ d ∈ excludedDomains, pyContains (pyLower (urlparse url).netloc) d = false) ∧
       10 ≤ url.length) := by
  unfold isValidUrl
  by_cases h1 : (urlparse url).scheme = [] <;>
  by_cases h2 : (urlparse url).netloc = [] <;>
  by_cases h3 : excludedExtensions.any (fun ext => pyEndsWith (pyLower url) ext) = true <;>
  by_cases h4 : excludedDomains.any (fun d => pyContains (pyLower (urlparse url).netloc) d) = true <;>
  by_cases h5 : url.length < 10 <;>
  simp_all [List.any_eq_true]

/-- C4 counterexample: `https://xtwitter.comx/a` has a scheme, a host
that is in no blocked-host list, no blocked extension, and sufficient
length — the claim's conditions all hold (`specValidUrl` accepts) — yet
the code rejects it because `twitter.com` occurs as a substring of the
host `xtwitter.comx`. -/
theorem c4_blocked_host_substring_counterexample :
    specValidUrl (String.toList "https://xtwitter.comx/a") = true ∧
    isValidUrl (String.toList "https://xtwitter.comx/a") = false := by
  constructor <;> decide

/-- C1 (amended): the at-most-one-admission guarantee holds for the
filtered search results (at most one result per normalized URL and per
title/snippet content hash) and for the final collected dataset (at most
one record per content-hash key) — but not for the driver's raw
`synthetic_data` asset (see the counterexample). -/
theorem c1_output_assets_at_most_one {π κ : Type} [DecidableEq κ] (key : π → κ)
    (input : List SearchResult) (lists : List (List π)) (target : Nat) :
    (∀ k, ((filtrationExecute input).filter (fun r => urlKey r = k)).length ≤ 1) ∧
    (∀ k, ((filtrationExecute input).filter (fun r => contentKey r = k)).length ≤ 1) ∧
    (∀ k, ((dataCollectionExecute key lists target).data.filter
            (fun p => key p = k)).length ≤ 1) := by
  obtain ⟨hu, hc⟩ := filtrationExecute_nodup input
  refine ⟨fun k => count_le_one_of_map_nodup urlKey _ hu k,
          fun k => count_le_one_of_map_nodup contentKey _ hc k, fun k => ?_⟩
  have hnd : ((collectUnique key lists.flatten).map key).Nodup :=
    collectUnique_nodup key lists.flatten
  have htake : (((collectUnique key lists.flatten).take target).map key).Nodup := by
    rw [List.map_take]
    exact hnd.sublist (List.take_sublist _ _)
  exact count_le_one_of_map_nodup key _ htake k

/-- C1 counterexample: the driver's stage-4 loop appends each topic's
generated records to the `synthetic_data` asset without any admission
check; when the generation service returns the same record (content key
`0`) for two topics, the persisted asset holds two units with that
CanonicalKey, violating the claimed `≤ 1`. -/
theorem c1_driver_asset_duplicate :
    ((driverStage4 (fun _ => [0]) 10 [String.toList "a", String.toList "b"] []).filter
        (fun x : Nat => x = 0)).length = 2 := by decide

/-- C5: the final dataset's data list is the deduplicated record list
truncated to the target (length `min unique target`), `actual_count` is
that length, `after_deduplication` is the unique count,
`total_generated` the raw count, and when enough unique records exist
the completion rate is exactly `"100.0%"`. -/
theorem c5_final_dataset_counts {π κ : Type} [DecidableEq κ] (key : π → κ)
    (lists : List (List π)) (target : Nat) (h : 0 < target) :
    (dataCollectionExecute key lists target).data.length =
      min (collectUnique key lists.flatten).length target ∧
    (dataCollectionExecute key lists target).metadata.actual_count =
      (dataCollectionExecute key lists target).data.length ∧
    (dataCollectionExecute key lists target).metadata.after_deduplication =
      (collectUnique key lists.flatten).length ∧
    (dataCollectionExecute key lists target).metadata.total_generated =
      lists.flatten.length ∧
    (target ≤ (collectUnique key lists.flatten).length →
      (dataCollectionExecute key lists target).metadata.completion_rate = "100.0%") := by
  have hlen : (dataCollectionExecute key lists target).data.length =
      min (collectUnique key lists.flatten).length target := by
    simp only [dataCollectionExecute, List.length_take, Nat.min_comm]
  refine ⟨hlen, rfl, rfl, rfl, ?_⟩
  intro htar
  have hfin : (dataCollectionExecute key lists target).data.length = target := by omega
  show formatPct1 (dataCollectionExecute key lists target).data.length target = "100.0%"
  rw [hfin]
  exact formatPct1_self target h

/-- Witness for C5: 4 candidate records, one duplicate, target 2. -/
theorem c5_final_dataset_counts_witness : 0 < 2 ∧
    ((dataCollectionExecute (fun n : Nat => n) [[1, 2], [2, 3]] 2).data.length =
       min (collectUnique (fun n : Nat => n) [[1, 2], [2, 3]].flatten).length 2 ∧
     (dataCollectionExecute (fun n : Nat => n) [[1, 2], [2, 3]] 2).metadata.actual_count =
       (dataCollectionExecute (fun n : Nat => n) [[1, 2], [2, 3]] 2).data.length ∧
     (dataCollectionExecute (fun n : Nat => n) [[1, 2], [2, 3]] 2).metadata.after_deduplication =
       (collectUnique (fun n : Nat => n) [[1, 2], [2, 3]].flatten).length ∧
     (dataCollectionExecute (fun n : Nat => n) [[1, 2], [2, 3]] 2).metadata.total_generated =
       [[1, 2], [2, 3]].flatten.length ∧
     (2 ≤ (collectUnique (fun n : Nat => n) [[1, 2], [2, 3]].flatten).length →
       (dataCollectionExecute (fun n : Nat => n) [[1, 2], [2, 3]] 2).metadata.completion_rate =
         "100.0%")) :=
  ⟨by decide, c5_final_dataset_counts (fun n : Nat => n) [[1, 2], [2, 3]] 2 (by decide)⟩

lemma sizesSum (per rem w : Nat) :
    ((List.range w).map (fun i => per + if i < rem then 1 else 0)).sum = w * per + min rem w := by
  induction w with
  | zero => simp
  | succ n ih =>
    rw [List.range_succ, List.map_append, List.sum_append, ih]
    simp only [List.map_cons, List.map_nil, List.sum_cons, List.sum_nil]
    have hmul : (n + 1) * per = n * per + per := by ring
    by_cases hr : n < rem
    · rw [if_pos hr]; omega
    · rw [if_neg hr]; omega

lemma topicSetSizes_sum (n w : Nat) (hw : 0 < w) : (topicSetSizes n w).sum = n := by
  unfold topicSetSizes
  rw [sizesSum]
  have h1 : n % w < w := Nat.mod_lt _ hw
  rw [min_eq_left h1.le]
  exact Nat.div_add_mod n w

lemma splitSizes_flatten {α : Type} (l : List α) (ns : List Nat) (h : ns.sum = l.length) :
    (splitSizes l ns).flatten = l := by
  induction ns generalizing l with
  | nil =>
    simp only [List.sum_nil] at h
    have hl : l = [] := List.eq_nil_of_length_eq_zero h.symm
    subst hl; rfl
  | cons n ns ih =>
    simp only [splitSizes, List.flatten_cons]
    rw [ih (l.drop n) (by simp only [List.sum_cons] at h; rw [List.length_drop]; omega)]
    exact List.take_append_drop n l

lemma splitSizes_length {α : Type} (l : List α) (ns : List Nat) :
    (splitSizes l ns).length = ns.length := by
  induction ns generalizing l with
  | nil => rfl
  | cons n ns ih => simp [splitSizes, ih]

lemma splitSizes_map_length {α : Type} (l : List α) (ns : List Nat) (h : ns.sum = l.length) :
    (splitSizes l ns).map List.length = ns := by
  induction ns generalizing l with
  | nil => rfl
  | cons n ns ih =>
    simp only [splitSizes, List.map_cons]
    simp only [List.sum_cons] at h
    congr 1
    · rw [List.length_take]; omega
    · exact ih (l.drop n) (by rw [List.length_drop]; omega)

lemma topicSetSizes_mem (n w a : Nat) (ha : a ∈ topicSetSizes n w) :
    a = n / w ∨ a = n / w + 1 := by
  unfold topicSetSizes at ha
  obtain ⟨i, _, hi⟩ := List.mem_map.mp ha
  by_cases hr : i < n % w
  · rw [if_pos hr] at hi; omega
  · rw [if_neg hr] at hi; omega

/-- C9: after the insufficient-topics extension, the per-agent topic
sets are contiguous slices whose concatenation is the (possibly
extended) topics list — every position goes to exactly one agent — and
any two set sizes differ by at most one. -/
theorem c9_topic_slicing (topics : List PyStr) (required w : Nat)
    (hw : 0 < w) (hne : topics ≠ []) :
    (topicSets (extendTopics topics required) w).flatten = extendTopics topics required ∧
    (topicSets (extendTopics topics required) w).length = w ∧
    (∀ s1 ∈ topicSets (extendTopics topics required) w,
     ∀ s2 ∈ topicSets (extendTopics topics required) w,
      s1.length ≤ s2.length + 1) := by
  have hsum := topicSetSizes_sum (extendTopics topics required).length w hw
  refine ⟨splitSizes_flatten _ _ hsum, ?_, ?_⟩
  · rw [topicSets, splitSizes_length]
    unfold topicSetSizes
    simp
  · intro s1 h1 s2 h2
    have hm := splitSizes_map_length (extendTopics topics required) _ hsum
    have h1l : s1.length ∈ topicSetSizes (extendTopics topics required).length w := by
      rw [← hm]; exact List.mem_map_of_mem _ h1
    have h2l : s2.length ∈ topicSetSizes (extendTopics topics required).length w := by
      rw [← hm]; exact List.mem_map_of_mem _ h2
    rcases topicSetSizes_mem _ _ _ h1l with e1 | e1 <;>
      rcases topicSetSizes_mem _ _ _ h2l with e2 | e2 <;> omega

/-- Witness for C9 at a concrete input (2 topics, 5 required, 3 agents). -/
theorem c9_topic_slicing_witness :
    0 < 3 ∧ [String.toList "a", String.toList "b"] ≠ [] ∧
    ((topicSets (extendTopics [String.toList "a", String.toList "b"] 5) 3).flatten =
       extendTopics [String.toList "a", String.toList "b"] 5 ∧
     (topicSets (extendTopics [String.toList "a", String.toList "b"] 5) 3).length = 3 ∧
     (∀ s1 ∈ topicSets (extendTopics [String.toList "a", String.toList "b"] 5) 3,
      ∀ s2 ∈ topicSets (extendTopics [String.toList "a", String.toList "b"] 5) 3,
       s1.length ≤ s2.length + 1)) :=
  ⟨by decide, by decide,
   c9_topic_slicing [String.toList "a", String.toList "b"] 5 3 (by decide) (by decide)⟩

/-- C10: with an empty topics list, the generation fan-out returns
exactly three empty result lists and dispatches no agent (so no
generation-service call is made), for any worker and any configured
number of parallel workers. -/
theorem c10_empty_topics {π : Type} (worker : List PyStr → Except PyStr (List π))
    (maxWorkers required : Nat) :
    runParallelSyntheticGeneration worker maxWorkers required [] = ([[], [], []], []) := by
  rfl

/-- C2 (amended): the synthetic-data parser takes the span from the
first `[` to the last `]` of the response and `json.loads` it; when the
response has no such span, or the span is not well-formed JSON, or
parses to a non-list, the call returns `[]` instead of raising. -/
theorem c2_span_parse (response : PyStr) :
    (∀ s xs, codeSpan response = some s → jsonLoads s = some (Json.arr xs) →
      generateSyntheticDataParse response = xs) ∧
    (∀ s, codeSpan response = some s →
      (∀ xs, jsonLoads s ≠ some (Json.arr xs)) →
      generateSyntheticDataParse response = []) ∧
    (codeSpan response = none → generateSyntheticDataParse response = []) := by
  refine ⟨?_, ?_, ?_⟩
  · intro s xs hs hp
    simp only [generateSyntheticDataParse, hs, hp]
  · intro s hs hnp
    simp only [generateSyntheticDataParse, hs]
    cases hj : jsonLoads s with
    | none => rfl
    | some v =>
      cases v with
      | arr xs => exact absurd hj (hnp xs)
      | null => rfl
      | bool b => rfl
      | num n => rfl
      | str t => rfl
      | obj fs => rfl
  · intro h
    simp only [generateSyntheticDataParse, h]

/-- Witness for C2 on a concrete well-formed response. -/
theorem c2_span_parse_witness :
    generateSyntheticDataParse (String.toList "x [1, 2] y") = [Json.num 1, Json.num 2] :=
  (c2_span_parse (String.toList "x [1, 2] y")).1 (String.toList "[1, 2]")
    [Json.num 1, Json.num 2] rfl rfl

/-- C2 counterexample: on `"[1] x ]"` the code slices from the first `[`
to the *last* `]` (getting malformed text, hence `[]`), while parsing
the first *balanced* span, as the claim states it, would succeed with
`[1]`. -/
theorem c2_not_first_balanced_span :
    generateSyntheticDataParse (String.toList "[1] x ]") = [] ∧
    specFirstBalancedParse (String.toList "[1] x ]") = [Json.num 1] :=
  ⟨rfl, rfl⟩

/-- C3: when unique extracted topics fall short of the requirement, the
driver sets the status back to `query_parsed` and clears exactly the
`refined_queries` and `search_results` assets; every other asset
(including `all_extracted_topics`) and the checkpoint values are
unchanged. -/
theorem c3_insufficient_topics_frame (s : PipelineState) (required : Nat)
    (h : uniqueTopicsCount s < required) :
    (stage3TopicsCheck s required).status = String.toList "query_parsed" ∧
    (stage3TopicsCheck s required).assets (String.toList "refined_queries") = none ∧
    (stage3TopicsCheck s required).assets (String.toList "search_results") = none ∧
    (∀ n, n ≠ String.toList "refined_queries" → n ≠ String.toList "search_results" →
      (stage3TopicsCheck s required).assets n = s.assets n) ∧
    (stage3TopicsCheck s required).assets (String.toList "all_extracted_topics") =
      s.assets (String.toList "all_extracted_topics") ∧
    (stage3TopicsCheck s required).checkpoints = s.checkpoints := by
  unfold stage3TopicsCheck
  rw [if_pos h]
  refine ⟨rfl, ?_, ?_, ?_, ?_, rfl⟩
  · simp [clearAsset, updateStatus]
  · simp [clearAsset, updateStatus]
  · intro n h1 h2
    simp only [clearAsset, updateStatus]
    rw [if_neg h2, if_neg h1]
  · simp [clearAsset, updateStatus]

/-- Witness for C3 from a state with no topics extracted yet. -/
theorem c3_insufficient_topics_frame_witness :
    (stage3TopicsCheck ⟨String.toList "content_gathered", fun _ => none, fun _ => none⟩
      1).status = String.toList "query_parsed" ∧
    (stage3TopicsCheck ⟨String.toList "content_gathered", fun _ => none, fun _ => none⟩
      1).assets (String.toList "refined_queries") = none ∧
    (stage3TopicsCheck ⟨String.toList "content_gathered", fun _ => none, fun _ => none⟩
      1).assets (String.toList "search_results") = none ∧
    (∀ n, n ≠ String.toList "refined_queries" → n ≠ String.toList "search_results" →
      (stage3TopicsCheck ⟨String.toList "content_gathered", fun _ => none, fun _ => none⟩
        1).assets n =
        (⟨String.toList "content_gathered", fun _ => none, fun _ => none⟩ :
          PipelineState).assets n) ∧
    (stage3TopicsCheck ⟨String.toList "content_gathered", fun _ => none, fun _ => none⟩
      1).assets (String.toList "all_extracted_topics") =
      (⟨String.toList "content_gathered", fun _ => none, fun _ => none⟩ :
        PipelineState).assets (String.toList "all_extracted_topics") ∧
    (stage3TopicsCheck ⟨String.toList "content_gathered", fun _ => none, fun _ => none⟩
      1).checkpoints =
      (⟨String.toList "content_gathered", fun _ => none, fun _ => none⟩ :
        PipelineState).checkpoints :=
  c3_insufficient_topics_frame
    ⟨String.toList "content_gathered", fun _ => none, fun _ => none⟩ 1
    (by decide)

/-- C6: for a fan-out batch whose worker fails on a strict subset of the
dispatched items, the collection loop yields one result per dispatched
item (in any completion order): the worker's output for items outside
the failing set, `[]` for failing items, and the batch itself is a total
function (it never raises). -/
theorem c6_partial_failure_isolation {ι π : Type} (res : ι → Except PyStr (List π))
    (dispatched order : List ι) (hperm : order.Perm dispatched)
    (hS : ∃ i ∈ dispatched, ∃ r, res i = Except.ok r) :
    (collectGenerationResults res order).length = dispatched.length ∧
    (∀ i ∈ dispatched, ∀ r, res i = Except.ok r →
      r ∈ collectGenerationResults res order) ∧
    (∀ i ∈ dispatched, ∀ e, res i = Except.error e →
      ([] : List π) ∈ collectGenerationResults res order) := by
  refine ⟨?_, ?_, ?_⟩
  · rw [collectGenerationResults, List.length_map]
    exact hperm.length_eq
  · intro i hi r hr
    have hio : i ∈ order := hperm.mem_iff.mpr hi
    have hm := List.mem_map_of_mem
      (fun j => match res j with | .ok r => r | .error _ => ([] : List π)) hio
    simp only [hr] at hm
    exact hm
  · intro i hi e hr
    have hio : i ∈ order := hperm.mem_iff.mpr hi
    have hm := List.mem_map_of_mem
      (fun j => match res j with | .ok r => r | .error _ => ([] : List π)) hio
    simp only [hr] at hm
    exact hm

/-- Witness for C6: worker fails on item 1 out of `[0, 1, 2]`, results
collected in completion order `[2, 0, 1]`. -/
theorem c6_partial_failure_isolation_witness :
    (collectGenerationResults
      (fun i : Nat => if i = 1 then Except.error (String.toList "fail") else Except.ok [i])
      [2, 0, 1]).length = [0, 1, 2].length ∧
    (∀ i ∈ [0, 1, 2], ∀ r,
      (fun i : Nat => if i = 1 then Except.error (String.toList "fail") else Except.ok [i]) i =
        Except.ok r →
      r ∈ collectGenerationResults
        (fun i : Nat => if i = 1 then Except.error (String.toList "fail") else Except.ok [i])
        [2, 0, 1]) ∧
    (∀ i ∈ [0, 1, 2], ∀ e,
      (fun i : Nat => if i = 1 then Except.error (String.toList "fail") else Except.ok [i]) i =
        Except.error e →
      ([] : List Nat) ∈ collectGenerationResults
        (fun i : Nat => if i = 1 then Except.error (String.toList "fail") else Except.ok [i])
        [2, 0, 1]) :=
  c6_partial_failure_isolation _ [0, 1, 2] [2, 0, 1] (by decide)
    ⟨0, by decide, [0], rfl⟩

lemma syntheticAgentExecute_stops {π : Type} (gen : PyStr → Except PyStr (List π))
    (f : PyStr → List π) (ts1 ts2 : List PyStr) (tbad : PyStr) (e : PyStr) (acc : List π)
    (h1 : ∀ t ∈ ts1, gen t = Except.ok (f t)) (h2 : gen tbad = Except.error e) :
    syntheticAgentExecute gen (ts1 ++ tbad :: ts2) acc = acc ++ (ts1.map f).flatten := by
  induction ts1 generalizing acc with
  | nil => simp [syntheticAgentExecute, h2]
  | cons t ts ih =>
    have ht : gen t = Except.ok (f t) := h1 t (List.mem_cons_self _ _)
    simp only [List.cons_append, syntheticAgentExecute, ht, List.append_eq]
    rw [ih (acc ++ f t) (fun u hu => h1 u (List.mem_cons_of_mem _ hu))]
    simp [List.append_assoc]

/-- C7: on a quota/rate-limit failure at a non-final attempt the client
rotates to the next credential (`(index+1) % len(keys)`) and only then
performs the backoff retry (the rotate event precedes the backoff event
in program order); and when the generation service raises (all
credentials exhausted), the generator agent stops issuing further calls
for the invocation — the remaining topics are never requested — and the
partial output accumulated so far is what is saved and returned. -/
theorem c7_rotation_and_partial_output
    (oracle : Nat → CallOutcome) (numKeys total attempt keyIdx : Nat)
    (trace : List GenEvent)
    (hq : oracle attempt = .quotaFailure) (hlt : attempt < total)
    (hnl : attempt ≠ total - 1)
    {π : Type} (gen : PyStr → Except PyStr (List π)) (f : PyStr → List π)
    (ts1 ts2 : List PyStr) (tbad : PyStr) (e : PyStr) (acc : List π)
    (h1 : ∀ t ∈ ts1, gen t = Except.ok (f t)) (h2 : gen tbad = Except.error e) :
    generateTextLoop oracle numKeys total attempt keyIdx trace =
      generateTextLoop oracle numKeys total (attempt + 1) ((keyIdx + 1) % numKeys)
        (trace ++ [.call attempt keyIdx, .rotate ((keyIdx + 1) % numKeys),
                   .backoff (2 ^ (attempt / numKeys))]) ∧
    syntheticAgentExecute gen (ts1 ++ tbad :: ts2) acc = acc ++ (ts1.map f).flatten := by
  constructor
  · rw [generateTextLoop]
    rw [dif_pos hlt, hq]
    simp only [if_neg hnl]
    simp [List.append_assoc]
  · exact syntheticAgentExecute_stops gen f ts1 ts2 tbad e acc h1 h2

/-- Witness for C7: two credentials, quota failure on the first attempt,
and an agent whose second topic exhausts the credentials. -/
theorem c7_rotation_and_partial_output_witness :
    (fun _ : Nat => CallOutcome.quotaFailure) 0 = CallOutcome.quotaFailure ∧ 0 < 6 ∧ 0 ≠ 6 - 1 ∧
    (generateTextLoop (fun _ => CallOutcome.quotaFailure) 2 6 0 0 [] =
      generateTextLoop (fun _ => CallOutcome.quotaFailure) 2 6 1 ((0 + 1) % 2)
        ([] ++ [.call 0 0, .rotate ((0 + 1) % 2), .backoff (2 ^ (0 / 2))]) ∧
     syntheticAgentExecute
        (fun t => if t = [] then Except.error (String.toList "quota")
                  else Except.ok [t.length])
        ([String.toList "a"] ++ [] :: [String.toList "b"]) [] =
       [] ++ ([String.toList "a"].map (fun t => [t.length])).flatten) :=
  ⟨rfl, by decide, by decide,
   c7_rotation_and_partial_output (fun _ => CallOutcome.quotaFailure) 2 6 0 0 []
     rfl (by decide) (by decide)
     (fun t => if t = [] then Except.error (String.toList "quota") else Except.ok [t.length])
     (fun t => [t.length]) [String.toList "a"] [String.toList "b"] [] (String.toList "quota")
     [] (by intro t ht; simp only [List.mem_singleton] at ht; subst ht; rfl) rfl⟩

/-- C8: the driver marks a run `completed` only when the accumulated
`synthetic_data` count has reached the target — along any sequence of
driver transitions, a `completed` state implies `count ≥ target` — and
while the count is below the target the loop-tail check leaves the state
unchanged and loops back instead of terminating. -/
theorem c8_completed_only_when_target_met (target : Nat) (s0 s : DriverState)
    (hreach : Relation.ReflTransGen (DriverStep target) s0 s)
    (h0 : s0.status = Status.completed → target ≤ s0.count) :
    (s.status = Status.completed → target ≤ s.count) ∧
    (∀ u : DriverState, u.count < target → loopTailCheck target u = (u, false)) := by
  constructor
  · induction hreach with
    | refl => exact h0
    | tail hab hstep ih =>
      cases hstep with
      | parseQuery h => intro hc; simp at hc
      | refineQuery h => intro hc; simp at hc
      | webSearch h => intro hc; simp at hc
      | webScrape h => intro hc; simp at hc
      | gatherContent h => intro hc; simp at hc
      | topicsSufficient h => intro hc; simp at hc
      | topicsInsufficient h => intro hc; simp at hc
      | generateForTopic k h =>
        intro hc
        exact (ih hc).trans (Nat.le_add_right _ _)
      | dataGenerated h => intro hc; simp at hc
      | complete h => exact fun _ => h
  · intro u hu
    unfold loopTailCheck
    rw [if_neg (by omega)]

/-- Witness for C8 from the initial state. -/
theorem c8_completed_only_when_target_met_witness :
    ((⟨Status.initial, 0⟩ : DriverState).status = Status.completed →
      5 ≤ (⟨Status.initial, 0⟩ : DriverState).count) ∧
    (∀ u : DriverState, u.count < 5 → loopTailCheck 5 u = (u, false)) :=
  c8_completed_only_when_target_met 5 ⟨Status.initial, 0⟩ ⟨Status.initial, 0⟩
    Relation.ReflTransGen.refl (by decide)

/-- Witness for C4 at a concrete accepted URL. -/
theorem c4_is_valid_url_iff_witness :
    isValidUrl (String.toList "https://example.org/page") = true ↔
      ((urlparse (String.toList "https://example.org/page")).scheme ≠ [] ∧
       (urlparse (String.toList "https://example.org/page")).netloc ≠ [] ∧
       (∀ ext ∈ excludedExtensions,
         pyEndsWith (pyLower (String.toList "https://example.org/page")) ext = false) ∧
       (∀ d ∈ excludedDomains,
         pyContains (pyLower (urlparse (String.toList "https://example.org/page")).netloc) d
           = false) ∧
       10 ≤ (String.toList "https://example.org/page").length) :=
  c4_is_valid_url_iff (String.toList "https://example.org/page")
